import Mathlib

/-!
Shallow embedding of the Aerospike-backed LangGraph checkpointer
(`src/langgraph/checkpoint/aerospike/saver.py`).

The backend key-value store is modelled as an association list from keys to
records; Python dicts of dynamic scalar values are modelled as association
lists of `DVal`; the pluggable serialization codecs (`self.serde`, `json`,
and the external `WRITES_IDX_MAP` constant) are grouped into a `Codecs`
parameter, with serialized payloads living in an opaque `Blob` type.
Fallible Python code (raised exceptions) is modelled with `Except String`.
-/

/-- Python-style dynamic scalar values appearing in config / checkpoint
dicts: `None`, strings, and integers. -/
inductive DVal where
  | dnull : DVal
  | dstr : String → DVal
  | dint : Int → DVal
deriving DecidableEq, Repr

/-- Python truthiness of a `DVal` (`None`, `""` and `0` are falsy). -/
def DVal.truthy : DVal → Bool
  | .dnull => false
  | .dstr s => s != ""
  | .dint n => n != 0

/-- Python stringification, as performed by an f-string interpolation. -/
def DVal.toStr : DVal → String
  | .dnull => "None"
  | .dstr s => s
  | .dint n => toString n

/-- A Python dict of dynamic values, as an association list (first match
wins, mirroring a dict where keys are unique). -/
abbrev PyDict := List (String × DVal)

def dictGet (d : PyDict) (k : String) : Option DVal :=
  match d.find? (fun p => p.1 == k) with
  | some p => some p.2
  | none => none

/-- Python dict assignment `d[k] = v`: replaces the value in place when the
key is present (keeping its position), else appends at the end. -/
def dictSet (d : PyDict) (k : String) (v : DVal) : PyDict :=
  match d with
  | [] => [(k, v)]
  | p :: rest => if p.1 == k then (k, v) :: rest else p :: dictSet rest k v

/-- Python `d.get(k)`: `None` when the key is absent. -/
def pyGet (d : PyDict) (k : String) : DVal :=
  (dictGet d k).getD .dnull

/-- A dynamically typed Python value handed to `serde.dumps_typed`: either a
whole checkpoint dict or a single channel value. -/
inductive PyVal where
  | dict : PyDict → PyVal
  | prim : DVal → PyVal
deriving DecidableEq, Repr

/-- Opaque serialized content stored in a record bin.  `str` covers
arbitrary (possibly corrupt / legacy) content that decoders may reject. -/
inductive Blob where
  | str : String → Blob
  | py : PyVal → Blob
  | meta : PyDict → Blob
  | tl : List (DVal × String) → Blob
deriving DecidableEq, Repr

/-- One element of a decoded timeline JSON list: either a well-formed
`[ts, checkpoint_id]` pair or a non-conforming element that the cleaning
pass in `_read_timeline_items` drops. -/
inductive TLItem where
  | pair : DVal → String → TLItem
  | junk : DVal → TLItem
deriving DecidableEq, Repr

/-- One item of the pending-writes ledger (a Python dict in the source);
optional fields model record content that may miss keys. -/
structure WItem where
  task_id : Option String := none
  task_path : Option String := none
  channel : Option String := none
  idx : Option Int := none
  wtype : Option String := none
  value : Option Blob := none
  ts : Option Int := none
deriving DecidableEq, Repr

/-- The bins of a stored Aerospike record; each saver-written record uses a
subset of these bins, absent bins are `none`. -/
structure Bins where
  thread_id : Option String := none
  checkpoint_ns : Option String := none
  checkpoint_id : Option String := none
  p_checkpoint_id : Option String := none
  cp_type : Option String := none
  checkpoint : Option Blob := none
  metadata : Option Blob := none
  ts : Option DVal := none
  items : Option Blob := none
  writes : Option (List WItem) := none
deriving DecidableEq, Repr

/-- The external pluggable pieces: `self.serde` (`dumps_typed` /
`loads_typed`), the `json` module used for metadata and the timeline, and
langgraph's `WRITES_IDX_MAP` constant (special channel → reserved negative
slot index).  `loads` functions return `none` where the Python decoder
raises. -/
structure Codecs where
  dumpsTyped : PyVal → String × Blob
  loadsTyped : String × Blob → Option PyVal
  jsonDumps : PyDict → Blob
  jsonLoads : Blob → Option PyDict
  tlDumps : List (DVal × String) → Blob
  tlLoads : Blob → Option (List TLItem)
  writesIdxMap : String → Option Int

/-- An Aerospike key `(namespace, set, user key)`. -/
structure AeroKey where
  ns : String
  sset : String
  ukey : String
deriving DecidableEq, Repr

/-- The backend store: an association list where the most recent `put` for
a key shadows older entries. -/
abbrev Store := List (AeroKey × Bins)

def storeGet (σ : Store) (k : AeroKey) : Option Bins :=
  match σ.find? (fun p => decide (p.1 = k)) with
  | some p => some p.2
  | none => none

def storePut (σ : Store) (k : AeroKey) (b : Bins) : Store :=
  (k, b) :: σ

def storeDel (σ : Store) (k : AeroKey) : Store :=
  σ.filter (fun p => !decide (p.1 = k))

/-- The identifying sub-dict of a RunnableConfig (`configurable` or
`metadata`); only the keys the saver reads are modelled. -/
structure SubCfg where
  thread_id : Option String := none
  checkpoint_ns : Option String := none
  checkpoint_id : Option String := none
  before : Option String := none
deriving DecidableEq, Repr

/-- A RunnableConfig-like dict; `none` sub-dicts model both an absent key
and a `None` value (`cfg.get("configurable", {}) or {}`). -/
structure Config where
  configurable : Option SubCfg := none
  metadata : Option SubCfg := none
deriving DecidableEq, Repr

/-- Python truthiness of an optional string (`None` and `""` are falsy). -/
def strTruthy : Option String → Bool
  | none => false
  | some s => s != ""

def SEP : String := "|"

/-- `AerospikeSaver._ids_from_config`: returns
`(thread_id, checkpoint_ns, checkpoint_id, before)` or raises `ValueError`
when no truthy thread id is found in `configurable` or `metadata`. -/
def _ids_from_config (config : Option Config) :
    Except String (String × String × Option String × Option String) :=
  let cfg := config.getD {}
  let c := cfg.configurable.getD {}
  let md := cfg.metadata.getD {}
  let tid := if strTruthy c.thread_id then c.thread_id else md.thread_id
  if strTruthy tid then
    let cns :=
      if strTruthy c.checkpoint_ns then c.checkpoint_ns.getD ""
      else if strTruthy md.checkpoint_ns then md.checkpoint_ns.getD ""
      else ""
    .ok (tid.getD "", cns, c.checkpoint_id, c.before)
  else .error "configurable.thread_id is required in RunnableConfig"

/-- The saver object's configuration (`AerospikeSaver.__init__` fields; the
client handle itself is the `Store` value threaded through operations). -/
structure AerospikeSaver where
  ns : String
  set_cp : String
  set_writes : String
  set_meta : String
  ttl : Option Int
  timeline_max : Int
deriving DecidableEq, Repr

/-- `AerospikeSaver.__init__`; note `timeline_max = max(1, int(timeline_max))`. -/
def mkSaver (namespc : String := "test") (set_cp : String := "lg_cp")
    (set_writes : String := "lg_cp_w") (set_meta : String := "lg_cp_meta")
    (ttl : Option Int := none) (timeline_max : Int := 500) : AerospikeSaver :=
  { ns := namespc, set_cp := set_cp, set_writes := set_writes,
    set_meta := set_meta, ttl := ttl, timeline_max := max 1 timeline_max }

def AerospikeSaver._key_cp (s : AerospikeSaver) (thread_id checkpoint_ns checkpoint_id : String) : AeroKey :=
  ⟨s.ns, s.set_cp, thread_id ++ SEP ++ checkpoint_ns ++ SEP ++ checkpoint_id⟩

def AerospikeSaver._key_writes (s : AerospikeSaver) (thread_id checkpoint_ns checkpoint_id : String) : AeroKey :=
  ⟨s.ns, s.set_writes, thread_id ++ SEP ++ checkpoint_ns ++ SEP ++ checkpoint_id⟩

def AerospikeSaver._key_latest (s : AerospikeSaver) (thread_id checkpoint_ns : String) : AeroKey :=
  ⟨s.ns, s.set_meta, thread_id ++ SEP ++ checkpoint_ns ++ SEP ++ "__latest__"⟩

def AerospikeSaver._key_timeline (s : AerospikeSaver) (thread_id checkpoint_ns : String) : AeroKey :=
  ⟨s.ns, s.set_meta, thread_id ++ SEP ++ checkpoint_ns ++ SEP ++ "__timeline__"⟩

/-- The cleaning pass of `_read_timeline_items`: keep only elements that
are two-element lists whose second component is a string. -/
def cleanTl (items : List TLItem) : List (DVal × String) :=
  items.filterMap (fun it =>
    match it with
    | .pair t cid => some (t, cid)
    | .junk _ => none)

/-- `AerospikeSaver._read_timeline_items`: absent record or bin, or a JSON
decode failure, degrade to `[]`. -/
def readTimelineItems (c : Codecs) (σ : Store) (k : AeroKey) : List (DVal × String) :=
  match storeGet σ k with
  | none => []
  | some bins =>
    match bins.items with
    | none => []
    | some b =>
      match c.tlLoads b with
      | none => []
      | some l => cleanTl l

/-- The result of `put`: the returned config, the caller's checkpoint dict
after the in-place `checkpoint["ts"] = ts` mutation, and the new store. -/
structure PutResult where
  config : Config
  checkpoint : PyDict
  store : Store
deriving DecidableEq, Repr

/-- `AerospikeSaver.put`: write the main record, overwrite the latest
pointer, and rewrite the timeline (dedup by id, prepend, cap). -/
def AerospikeSaver.put (s : AerospikeSaver) (c : Codecs) (σ : Store)
    (config : Option Config) (checkpoint : PyDict) (metadata : PyDict)
    (now : Int) : Except String PutResult :=
  match _ids_from_config config with
  | .error e => .error e
  | .ok (thread_id, checkpoint_ns, parent_checkpoint_id, _) =>
    let idv := pyGet checkpoint "id"
    if idv.truthy then
      let checkpoint_id := idv.toStr
      let ts0 := pyGet checkpoint "ts"
      let tsv := if ts0 = .dnull then DVal.dint now else ts0
      let checkpoint1 :=
        if ts0 = .dnull then dictSet checkpoint "ts" (DVal.dint now) else checkpoint
      let bytes := c.dumpsTyped (.dict checkpoint1)
      let key := s._key_cp thread_id checkpoint_ns checkpoint_id
      let rec1 : Bins :=
        { thread_id := some thread_id, checkpoint_ns := some checkpoint_ns,
          checkpoint_id := some checkpoint_id,
          p_checkpoint_id := parent_checkpoint_id,
          cp_type := some bytes.1, checkpoint := some bytes.2,
          metadata := some (c.jsonDumps metadata), ts := some tsv }
      let σ1 := storePut σ key rec1
      let latest_key := s._key_latest thread_id checkpoint_ns
      let σ2 := storePut σ1 latest_key { checkpoint_id := some checkpoint_id, ts := some tsv }
      let timeline_key := s._key_timeline thread_id checkpoint_ns
      let items0 := readTimelineItems c σ2 timeline_key
      let items1 := items0.filter (fun p => p.2 != checkpoint_id)
      let items2 := (tsv, checkpoint_id) :: items1
      let items3 :=
        if (items2.length : Int) > s.timeline_max then items2.take s.timeline_max.toNat
        else items2
      let σ3 := storePut σ2 timeline_key { items := some (c.tlDumps items3) }
      let cfg0 := config.getD {}
      let sub0 := cfg0.configurable.getD {}
      let newConfig : Config :=
        { cfg0 with configurable := some { sub0 with
            thread_id := some thread_id, checkpoint_ns := some checkpoint_ns,
            checkpoint_id := some checkpoint_id } }
      .ok { config := newConfig, checkpoint := checkpoint1, store := σ3 }
    else .error "checkpoint_id is required for put()"

/-- One iteration of the `put_writes` merge loop: compute the slot index,
build the new item, replace the first existing item with the same
`(task_id, idx)` in place, else append. -/
def mergeOne (c : Codecs) (task_id task_path : String) (now : Int)
    (acc : List WItem) (iw : Nat × String × PyVal) : List WItem :=
  let idx_val := (c.writesIdxMap iw.2.1).getD (Int.ofNat iw.1)
  let tv := c.dumpsTyped iw.2.2
  let new_item : WItem :=
    { task_id := some task_id, task_path := some task_path,
      channel := some iw.2.1, idx := some idx_val, wtype := some tv.1,
      value := some tv.2, ts := some now }
  match acc.findIdx? (fun item =>
      item.task_id == some task_id && item.idx == some idx_val) with
  | some i0 => acc.set i0 new_item
  | none => acc ++ [new_item]

/-- Loading the existing ledger in `put_writes`: record absent gives `[]`;
a record present without a list in its `writes` bin makes the later loop
raise a `TypeError` in the source. -/
def existingWritesItems (σ : Store) (k : AeroKey) : Except String (List WItem) :=
  match storeGet σ k with
  | none => .ok []
  | some bins =>
    match bins.writes with
    | some l => .ok l
    | none => .error "TypeError: existing writes bin holds no list"

/-- `AerospikeSaver.put_writes`: no-op on an empty batch or an absent /
falsy checkpoint id; otherwise merge into the existing ledger and write the
whole item list back. -/
def AerospikeSaver.put_writes (s : AerospikeSaver) (c : Codecs) (σ : Store)
    (config : Option Config) (writes : List (String × PyVal)) (task_id : String)
    (task_path : String) (now : Int) : Except String Store :=
  if writes.isEmpty then .ok σ
  else
    match _ids_from_config config with
    | .error e => .error e
    | .ok (thread_id, checkpoint_ns, cidOpt, _) =>
      if strTruthy cidOpt then
        let checkpoint_id := cidOpt.getD ""
        let key := s._key_writes thread_id checkpoint_ns checkpoint_id
        match existingWritesItems σ key with
        | .error e => .error e
        | .ok existing_items =>
          let final := writes.enum.foldl (mergeOne c task_id task_path now) existing_items
          .ok (storePut σ key { writes := some final })
      else .ok σ

/-- The pending-writes decode loop of `get_tuple`.  Only a missing key
(`KeyError`) is caught and skipped; a `loads_typed` failure on an item with
all keys present propagates as an uncaught exception. -/
def decodeWrites (c : Codecs) : List WItem → Except String (List (String × String × PyVal))
  | [] => .ok []
  | item :: rest =>
    match item.channel, item.wtype, item.value with
    | some ch, some ty, some v =>
      (match c.loadsTyped (ty, v) with
      | some pv =>
        (match decodeWrites c rest with
        | .ok tail => .ok ((item.task_id.getD "", ch, pv) :: tail)
        | .error e => .error e)
      | none => .error "loads_typed raised while decoding a pending write")
    | _, _, _ => decodeWrites c rest

/-- The checkpoint tuple returned by `get_tuple`. -/
structure CheckpointTuple where
  config : Config
  checkpoint : PyVal
  metadata : PyDict
  parent_config : Option Config
  pending_writes : List (String × String × PyVal)
deriving DecidableEq, Repr

/-- The fetch-and-decode phase of `get_tuple`, after the checkpoint id has
been resolved: fetch and decode the main record (undecodable payload
degrades to not-found, malformed metadata to `{}`), then attach the
pending writes. -/
def getTupleFetch (s : AerospikeSaver) (c : Codecs) (σ : Store)
    (thread_id checkpoint_ns checkpoint_id : String) :
    Except String (Option CheckpointTuple) :=
  match storeGet σ (s._key_cp thread_id checkpoint_ns checkpoint_id) with
  | none => .ok none
  | some bins =>
    match bins.cp_type, bins.checkpoint with
    | some cp_type, some raw_cp =>
      (match c.loadsTyped (cp_type, raw_cp) with
      | none => .ok none
      | some checkpoint =>
        let metadata :=
          match bins.metadata with
          | some b => (c.jsonLoads b).getD []
          | none => []
        let pendingE :=
          match storeGet σ (s._key_writes thread_id checkpoint_ns checkpoint_id) with
          | none => Except.ok []
          | some wbins => decodeWrites c (wbins.writes.getD [])
        match pendingE with
        | .error e => .error e
        | .ok pending_writes =>
          .ok (some
            { config := ⟨some ⟨some thread_id, some checkpoint_ns, some checkpoint_id, none⟩, none⟩,
              checkpoint := checkpoint,
              metadata := metadata,
              parent_config :=
                if strTruthy bins.p_checkpoint_id then
                  some ⟨some ⟨some thread_id, some checkpoint_ns, bins.p_checkpoint_id, none⟩, none⟩
                else none,
              pending_writes := pending_writes }))
    | _, _ => .ok none

/-- `AerospikeSaver.get_tuple`: resolve the checkpoint id via the latest
pointer when absent from the config, then fetch. -/
def AerospikeSaver.get_tuple (s : AerospikeSaver) (c : Codecs) (σ : Store)
    (config : Option Config) : Except String (Option CheckpointTuple) :=
  match _ids_from_config config with
  | .error e => .error e
  | .ok (thread_id, checkpoint_ns, cidOpt, _) =>
    let resolved : Option String :=
      match cidOpt with
      | some cid => some cid
      | none =>
        match storeGet σ (s._key_latest thread_id checkpoint_ns) with
        | none => none
        | some lbins => lbins.checkpoint_id
    match resolved with
    | none => .ok none
    | some checkpoint_id => getTupleFetch s c σ thread_id checkpoint_ns checkpoint_id

/-- The `before` scan of `list`: drop everything up to and including the
first occurrence of `before`, keep everything after it. -/
def beforeScan (before : String) (seen : Bool) : List (DVal × String) → List (DVal × String)
  | [] => []
  | (t, cid) :: rest =>
    if !seen && cid == before then beforeScan before true rest
    else if seen then (t, cid) :: beforeScan before seen rest
    else beforeScan before seen rest

/-- The rendering loop of `list`: fetch each main record, skip missing
ones, decode metadata (malformed or absent degrades to `{}`). -/
def listRender (s : AerospikeSaver) (c : Codecs) (σ : Store)
    (thread_id checkpoint_ns : String) (items : List (DVal × String)) :
    List (String × PyDict) :=
  items.foldl (fun out p =>
    match storeGet σ (s._key_cp thread_id checkpoint_ns p.2) with
    | none => out
    | some bins =>
      let meta :=
        match bins.metadata with
        | some b => (c.jsonLoads b).getD []
        | none => []
      out ++ [(p.2, meta)]) []

/-- `AerospikeSaver.list`: newest-first `(checkpoint_id, metadata)` pairs
from the timeline, optionally filtered by a truthy `before`, truncated to
`max(1, limit)`. -/
def AerospikeSaver.list (s : AerospikeSaver) (c : Codecs) (σ : Store)
    (config : Option Config) (limit : Int) :
    Except String (List (String × PyDict)) :=
  match _ids_from_config config with
  | .error e => .error e
  | .ok (thread_id, checkpoint_ns, _, before) =>
    let items := readTimelineItems c σ (s._key_timeline thread_id checkpoint_ns)
    let items :=
      if strTruthy before then beforeScan (before.getD "") false items else items
    .ok (listRender s c σ thread_id checkpoint_ns (items.take (max 1 limit).toNat))

/-- Modelled from the spec: `delete_thread` is exercised by the
repository's tests (`src/tests/test_delete_thread_live.py`) but its
implementation is not among the provided source files.  Per spec section
4.6 it removes the Latest Pointer record, the Timeline Index record, and
every main checkpoint and pending-writes record reachable from the
Timeline Index (degraded: from the Latest Pointer) for the thread /
namespace, best effort, without erroring when the index is missing or
corrupt. -/
def AerospikeSaver.delete_thread (s : AerospikeSaver) (c : Codecs) (σ : Store)
    (config : Option Config) : Except String Store :=
  match _ids_from_config config with
  | .error e => .error e
  | .ok (thread_id, checkpoint_ns, _, _) =>
    let tlKey := s._key_timeline thread_id checkpoint_ns
    let lKey := s._key_latest thread_id checkpoint_ns
    let cids := (readTimelineItems c σ tlKey).map (fun p => p.2)
    let cids :=
      match storeGet σ lKey with
      | some lb =>
        match lb.checkpoint_id with
        | some cid => cids ++ [cid]
        | none => cids
      | none => cids
    let σ1 := cids.foldl (fun st cid =>
      storeDel (storeDel st (s._key_cp thread_id checkpoint_ns cid))
        (s._key_writes thread_id checkpoint_ns cid)) σ
    let σ2 := storeDel σ1 lKey
    let σ3 := storeDel σ2 tlKey
    .ok σ3

/-- A concrete, canonical instantiation of the external codecs: structured
blobs make every encoder injective and every decoder its inverse, while
`Blob.str` content is rejected (modelling corrupt / legacy records).  The
special-channel map mirrors langgraph's `WRITES_IDX_MAP`. -/
def canonCodecs : Codecs :=
  { dumpsTyped := fun v => ("py", .py v),
    loadsTyped := fun tb =>
      if tb.1 = "py" then
        match tb.2 with
        | .py v => some v
        | _ => none
      else none,
    jsonDumps := fun m => .meta m,
    jsonLoads := fun b =>
      match b with
      | .meta m => some m
      | _ => none,
    tlDumps := fun l => .tl l,
    tlLoads := fun b =>
      match b with
      | .tl l => some (l.map (fun p => TLItem.pair p.1 p.2))
      | _ => none,
    writesIdxMap := fun ch =>
      if ch = "__error__" then some (-1)
      else if ch = "__scheduled__" then some (-2)
      else if ch = "__interrupt__" then some (-3)
      else if ch = "__resume__" then some (-4)
      else none }

/-- Iterate `put` over a list of `(checkpoint_id, timestamp)` inputs, each
step feeding the resulting store to the next (harness for stating iterated
timeline behavior). -/
def runPuts (s : AerospikeSaver) (c : Codecs) (config : Option Config) :
    Store → List (String × Int) → Except String Store
  | σ, [] => .ok σ
  | σ, (cid, tsn) :: rest =>
    match s.put c σ config [("id", .dstr cid)] [] tsn with
    | .error e => .error e
    | .ok r => runPuts s c config r.store rest

/-! ### Store and key lemmas -/

theorem storeGet_put_self (σ : Store) (k : AeroKey) (b : Bins) :
    storeGet (storePut σ k b) k = some b := by
  simp [storeGet, storePut, List.find?]

theorem storeGet_put_ne (σ : Store) (k k' : AeroKey) (b : Bins) (h : k' ≠ k) :
    storeGet (storePut σ k b) k' = storeGet σ k' := by
  simp only [storeGet, storePut, List.find?]
  rw [decide_eq_false (by simpa [eq_comm] using h)]

theorem storeGet_del_self (σ : Store) (k : AeroKey) :
    storeGet (storeDel σ k) k = none := by
  induction σ with
  | nil => rfl
  | cons p rest ih =>
    by_cases hp : p.1 = k
    · simpa [storeDel, List.filter, hp] using ih
    · simpa [storeDel, storeGet, List.filter, List.find?, hp] using ih

theorem find?_del (σ : List (AeroKey × Bins)) (k k' : AeroKey) (h : k' ≠ k) :
    (σ.filter (fun p => !decide (p.1 = k))).find? (fun p => decide (p.1 = k'))
      = σ.find? (fun p => decide (p.1 = k')) := by
  induction σ with
  | nil => rfl
  | cons p rest ih =>
    by_cases hp : p.1 = k
    · have hq : p.1 ≠ k' := by rw [hp]; exact fun hc => h hc.symm
      rw [List.filter_cons_of_neg (by simp [hp]),
        List.find?_cons_of_neg _ (by simp [hq]), ih]
    · by_cases hq : p.1 = k'
      · rw [List.filter_cons_of_pos (by simp [hp]),
          List.find?_cons_of_pos _ (by simp [hq]),
          List.find?_cons_of_pos _ (by simp [hq])]
      · rw [List.filter_cons_of_pos (by simp [hp]),
          List.find?_cons_of_neg _ (by simp [hq]),
          List.find?_cons_of_neg _ (by simp [hq]), ih]

theorem storeGet_del_ne (σ : Store) (k k' : AeroKey) (h : k' ≠ k) :
    storeGet (storeDel σ k) k' = storeGet σ k' := by
  unfold storeGet storeDel
  rw [find?_del σ k k' h]

theorem storeGet_del_none (σ : Store) (k k' : AeroKey) (h : storeGet σ k' = none) :
    storeGet (storeDel σ k) k' = none := by
  by_cases hk : k' = k
  · rw [hk]; exact storeGet_del_self σ k
  · rw [storeGet_del_ne σ k k' hk]; exact h

theorem storeDel_of_absent (σ : Store) (k : AeroKey) (h : storeGet σ k = none) :
    storeDel σ k = σ := by
  induction σ with
  | nil => rfl
  | cons p rest ih =>
    by_cases hp : p.1 = k
    · exfalso
      simp [storeGet, List.find?, hp] at h
    · have : storeGet rest k = none := by
        simpa [storeGet, List.find?, hp] using h
      simp [storeDel, List.filter, hp] at ih ⊢
      exact ih this

theorem key_latest_ne_timeline (s : AerospikeSaver) (t cns : String) :
    s._key_latest t cns ≠ s._key_timeline t cns := by
  intro h
  have hlen := congrArg (fun k => k.ukey.length) h
  simp only [AerospikeSaver._key_latest, AerospikeSaver._key_timeline,
    String.length_append] at hlen
  have h1 : "__latest__".length = 10 := rfl
  have h2 : "__timeline__".length = 12 := rfl
  omega

theorem key_cp_ne_latest (s : AerospikeSaver) (h : s.set_cp ≠ s.set_meta)
    (t cns cid t' cns' : String) : s._key_cp t cns cid ≠ s._key_latest t' cns' := by
  intro hk
  exact h (congrArg AeroKey.sset hk)

theorem key_cp_ne_timeline (s : AerospikeSaver) (h : s.set_cp ≠ s.set_meta)
    (t cns cid t' cns' : String) : s._key_cp t cns cid ≠ s._key_timeline t' cns' := by
  intro hk
  exact h (congrArg AeroKey.sset hk)

theorem key_writes_ne_latest (s : AerospikeSaver) (h : s.set_writes ≠ s.set_meta)
    (t cns cid t' cns' : String) : s._key_writes t cns cid ≠ s._key_latest t' cns' := by
  intro hk
  exact h (congrArg AeroKey.sset hk)

theorem key_writes_ne_timeline (s : AerospikeSaver) (h : s.set_writes ≠ s.set_meta)
    (t cns cid t' cns' : String) : s._key_writes t cns cid ≠ s._key_timeline t' cns' := by
  intro hk
  exact h (congrArg AeroKey.sset hk)

theorem key_writes_ne_cp (s : AerospikeSaver) (h : s.set_writes ≠ s.set_cp)
    (t cns cid t' cns' cid' : String) : s._key_writes t cns cid ≠ s._key_cp t' cns' cid' := by
  intro hk
  exact h (congrArg AeroKey.sset hk)

theorem cleanTl_map_pair (l : List (DVal × String)) :
    cleanTl (l.map (fun p => TLItem.pair p.1 p.2)) = l := by
  induction l with
  | nil => rfl
  | cons p rest ih => simp [cleanTl, List.filterMap] at ih ⊢; exact ih

/-! ### Small helpers for claim statements -/

/-- A saver constructed with all `__init__` defaults. -/
def defaultSaver : AerospikeSaver := mkSaver

theorem dictSet_append_of_absent (d : PyDict) (k : String) (v : DVal)
    (h : dictGet d k = none) : dictSet d k v = d ++ [(k, v)] := by
  induction d with
  | nil => rfl
  | cons p rest ih =>
    by_cases hp : p.1 == k
    · exfalso
      simp [dictGet, List.find?, hp] at h
    · have hr : dictGet rest k = none := by
        simpa [dictGet, List.find?, hp] using h
      simp [dictSet, hp, ih hr]

/-- C8: when `configurable` lacks `thread_id` / `checkpoint_ns` but the
top-level `metadata` mapping supplies them, `_ids_from_config` uses the
`metadata` values instead of raising, and `checkpoint_ns` defaults to `""`
when absent from both; an operation such as `get_tuple` then proceeds
normally on such a config. -/
theorem ids_from_metadata_fallback (t nsv : String) (cid bf : Option String)
    (ht : t ≠ "") (hns : nsv ≠ "") :
    _ids_from_config (some ⟨some ⟨none, none, cid, bf⟩, some ⟨some t, some nsv, none, none⟩⟩)
      = .ok (t, nsv, cid, bf)
    ∧ _ids_from_config (some ⟨some ⟨none, none, cid, bf⟩, some ⟨some t, none, none, none⟩⟩)
      = .ok (t, "", cid, bf)
    ∧ (∀ (s : AerospikeSaver) (c : Codecs),
        s.get_tuple c [] (some ⟨none, some ⟨some t, none, none, none⟩⟩) = .ok none) := by
  refine ⟨?_, ?_, ?_⟩
  · simp [_ids_from_config, strTruthy, bne_iff_ne, ht, hns]
  · simp [_ids_from_config, strTruthy, bne_iff_ne, ht]
  · intro s c
    simp [AerospikeSaver.get_tuple, getTupleFetch, _ids_from_config, strTruthy, bne_iff_ne, ht,
      storeGet, List.find?]

theorem ids_from_metadata_fallback_witness :
    _ids_from_config (some ⟨some ⟨none, none, some "c1", none⟩, some ⟨some "t1", some "ns1", none, none⟩⟩)
      = .ok ("t1", "ns1", some "c1", none) := by
  exact (ids_from_metadata_fallback "t1" "ns1" (some "c1") none (by decide) (by decide)).1

/-- C6 counterexample: a `thread_id` containing the internal separator
`"|"` is not rejected — `_ids_from_config` accepts it, `get_tuple` runs
with it instead of raising, and the resulting storage keys can collide
with those of a different `(thread_id, checkpoint_ns)` pair. -/
theorem thread_id_separator_not_rejected :
    _ids_from_config (some ⟨some ⟨some "a|b", none, none, none⟩, none⟩)
      = .ok ("a|b", "", none, none)
    ∧ defaultSaver._key_cp "a|b" "c" "d" = defaultSaver._key_cp "a" "b|c" "d"
    ∧ defaultSaver.get_tuple canonCodecs []
        (some ⟨some ⟨some "a|b", none, none, none⟩, none⟩) = .ok none := by
  refine ⟨rfl, by decide, rfl⟩

/-- C6 amended: an empty (or missing) `thread_id` is rejected with a
`ValueError`, but a `thread_id` containing the separator token is accepted
and silently used to build storage keys — there is no separator
validation. -/
theorem thread_id_validation_amended (t : String) (ht : t ≠ "") :
    _ids_from_config (some ⟨some ⟨some t, none, none, none⟩, none⟩) = .ok (t, "", none, none)
    ∧ _ids_from_config (some ⟨some ⟨some "", none, none, none⟩, none⟩)
        = .error "configurable.thread_id is required in RunnableConfig"
    ∧ _ids_from_config none
        = .error "configurable.thread_id is required in RunnableConfig" := by
  refine ⟨?_, rfl, rfl⟩
  simp [_ids_from_config, strTruthy, bne_iff_ne, ht]

theorem thread_id_validation_amended_witness :
    _ids_from_config (some ⟨some ⟨some "a|b", none, none, none⟩, none⟩)
      = .ok ("a|b", "", none, none) := by
  exact (thread_id_validation_amended "a|b" (by decide)).1

/-- C9 counterexample: a checkpoint that carries a `"ts"` key with value
`None` is still mutated by `put` — the source checks `ts is None`, which is
also true when the key is present with a `None` value, and then overwrites
it in place. -/
theorem put_ts_null_mutated :
    ((defaultSaver.put canonCodecs [] (some ⟨some ⟨some "t", none, none, none⟩, none⟩)
        [("id", DVal.dstr "c"), ("ts", DVal.dnull)] [] 99).map PutResult.checkpoint
      = .ok [("id", DVal.dstr "c"), ("ts", DVal.dint 99)])
    ∧ ([("id", DVal.dstr "c"), ("ts", DVal.dint 99)] : PyDict)
        ≠ [("id", DVal.dstr "c"), ("ts", DVal.dnull)] := by
  refine ⟨rfl, by decide⟩

/-- C9 amended: when the checkpoint has no `"ts"` key, `put` appends a
freshly generated timestamp under `"ts"` and leaves all other keys
unchanged; a checkpoint whose `"ts"` is present and non-`None` is not
mutated; a `"ts"` present with value `None` is replaced in place (like the
missing-key case, keeping its position). -/
theorem put_ts_frame_amended (s : AerospikeSaver) (c : Codecs) (σ : Store)
    (config : Option Config) (checkpoint metadata : PyDict) (now : Int)
    (t cns : String) (pcid bf : Option String)
    (hids : _ids_from_config config = .ok (t, cns, pcid, bf))
    (hid : (pyGet checkpoint "id").truthy = true) :
    (dictGet checkpoint "ts" = none →
      ∀ r, s.put c σ config checkpoint metadata now = .ok r →
        r.checkpoint = checkpoint ++ [("ts", DVal.dint now)])
    ∧ (dictGet checkpoint "ts" = some DVal.dnull →
      ∀ r, s.put c σ config checkpoint metadata now = .ok r →
        r.checkpoint = dictSet checkpoint "ts" (DVal.dint now))
    ∧ (∀ v, dictGet checkpoint "ts" = some v → v ≠ DVal.dnull →
      ∀ r, s.put c σ config checkpoint metadata now = .ok r →
        r.checkpoint = checkpoint) := by
  refine ⟨?_, ?_, ?_⟩
  · intro hts r hr
    have hts' : pyGet checkpoint "ts" = DVal.dnull := by simp [pyGet, hts]
    simp only [AerospikeSaver.put, hids, hid, hts', eq_self_iff_true, if_true] at hr
    rw [Except.ok.injEq] at hr
    rw [← hr]
    exact dictSet_append_of_absent checkpoint "ts" (DVal.dint now) hts
  · intro hts r hr
    have hts' : pyGet checkpoint "ts" = DVal.dnull := by simp [pyGet, hts]
    simp only [AerospikeSaver.put, hids, hid, hts', eq_self_iff_true, if_true] at hr
    rw [Except.ok.injEq] at hr
    rw [← hr]
  · intro v hts hv r hr
    have hts' : pyGet checkpoint "ts" = v := by simp [pyGet, hts]
    simp only [AerospikeSaver.put, hids, hid, hts', if_true, hv, if_false] at hr
    rw [Except.ok.injEq] at hr
    rw [← hr]

theorem put_ts_frame_amended_witness :
    dictGet [("id", DVal.dstr "c")] "ts" = none
    ∧ ∀ r, defaultSaver.put canonCodecs [] (some ⟨some ⟨some "t", none, none, none⟩, none⟩)
        [("id", DVal.dstr "c")] [] 7 = .ok r →
        r.checkpoint = [("id", DVal.dstr "c")] ++ [("ts", DVal.dint 7)] := by
  refine ⟨rfl, ?_⟩
  exact (put_ts_frame_amended defaultSaver canonCodecs []
      (some ⟨some ⟨some "t", none, none, none⟩, none⟩) [("id", DVal.dstr "c")] [] 7
      "t" "" none none rfl rfl).1 rfl

theorem ite_take_cons_facts {α : Type} (cap : Nat) (h : 1 ≤ cap) (x : α) (l : List α)
    (C : Prop) [Decidable C] :
    (if C then List.take cap (x :: l) else x :: l) ≠ []
    ∧ (if C then List.take cap (x :: l) else x :: l).head? = some x := by
  cases cap with
  | zero => exact absurd h (by omega)
  | succ m =>
    rw [List.take_succ_cons]
    split
    · exact ⟨List.cons_ne_nil _ _, rfl⟩
    · exact ⟨List.cons_ne_nil _ _, rfl⟩

/-- C10: `__init__` normalizes any `timeline_max` argument (including zero
and negatives) to `max(1, timeline_max)`, so after every successful `put`
the written Timeline Index is non-empty and starts with the just-written
`(timestamp, checkpoint_id)` entry. -/
theorem timeline_max_normalized (nsp scp sw sm : String) (ttl : Option Int) (tm : Int) :
    (mkSaver nsp scp sw sm ttl tm).timeline_max = max 1 tm
    ∧ (∀ (c : Codecs) (σ : Store) (config : Option Config)
        (checkpoint metadata : PyDict) (now : Int) (t cns : String)
        (pcid bf : Option String),
        _ids_from_config config = .ok (t, cns, pcid, bf) →
        (pyGet checkpoint "id").truthy = true →
        ∀ r, (mkSaver nsp scp sw sm ttl tm).put c σ config checkpoint metadata now = .ok r →
          ∃ l : List (DVal × String),
            storeGet r.store ((mkSaver nsp scp sw sm ttl tm)._key_timeline t cns)
              = some { items := some (c.tlDumps l) }
            ∧ l ≠ []
            ∧ l.head? = some
                ((if pyGet checkpoint "ts" = DVal.dnull then DVal.dint now
                  else pyGet checkpoint "ts"),
                 (pyGet checkpoint "id").toStr)) := by
  constructor
  · rfl
  · intro c σ config checkpoint metadata now t cns pcid bf hids hid r hr
    simp only [AerospikeSaver.put, hids, hid, if_true] at hr
    rw [Except.ok.injEq] at hr
    rw [← hr]
    refine ⟨_, storeGet_put_self _ _ _, ?_⟩
    have h1 : 1 ≤ (mkSaver nsp scp sw sm ttl tm).timeline_max.toNat := by
      have h2 : (1 : Int) ≤ (mkSaver nsp scp sw sm ttl tm).timeline_max := le_max_left 1 tm
      omega
    exact ite_take_cons_facts _ h1 _ _ _

theorem timeline_max_normalized_witness :
    (mkSaver "test" "lg_cp" "lg_cp_w" "lg_cp_meta" none (-3)).timeline_max = max 1 (-3)
    ∧ ∀ r, (mkSaver "test" "lg_cp" "lg_cp_w" "lg_cp_meta" none (-3)).put canonCodecs []
        (some ⟨some ⟨some "t", none, none, none⟩, none⟩) [("id", DVal.dstr "c")] [] 7 = .ok r →
        ∃ l : List (DVal × String),
          storeGet r.store ((mkSaver "test" "lg_cp" "lg_cp_w" "lg_cp_meta" none (-3))._key_timeline "t" "")
            = some { items := some (canonCodecs.tlDumps l) }
          ∧ l ≠ []
          ∧ l.head? = some
              ((if pyGet [("id", DVal.dstr "c")] "ts" = DVal.dnull then DVal.dint 7
                else pyGet [("id", DVal.dstr "c")] "ts"),
               (pyGet [("id", DVal.dstr "c")] "id").toStr) := by
  constructor
  · exact (timeline_max_normalized "test" "lg_cp" "lg_cp_w" "lg_cp_meta" none (-3)).1
  · intro r hr
    exact (timeline_max_normalized "test" "lg_cp" "lg_cp_w" "lg_cp_meta" none (-3)).2
      canonCodecs [] (some ⟨some ⟨some "t", none, none, none⟩, none⟩)
      [("id", DVal.dstr "c")] [] 7 "t" "" none none rfl rfl r hr

/-! ### Timeline lemmas (for the C2 invariant) -/

theorem readTimelineItems_put_put (c : Codecs) (σ : Store) (k1 : AeroKey) (b1 : Bins)
    (k2 : AeroKey) (b2 : Bins) (k : AeroKey) (h1 : k ≠ k1) (h2 : k ≠ k2) :
    readTimelineItems c (storePut (storePut σ k1 b1) k2 b2) k = readTimelineItems c σ k := by
  unfold readTimelineItems
  rw [storeGet_put_ne _ _ _ _ h2, storeGet_put_ne _ _ _ _ h1]

theorem ite_take_eq_take {α : Type} (cap : Int) (l : List α) :
    (if (l.length : Int) > cap then l.take cap.toNat else l) = l.take cap.toNat := by
  split
  · rfl
  · next h =>
    have h' : (l.length : Int) ≤ cap := not_lt.mp h
    have h2 : l.length ≤ cap.toNat := by omega
    rw [List.take_of_length_le h2]

theorem take_cons_head {α : Type} (n : Nat) (h : 1 ≤ n) (x : α) (l : List α) :
    List.take n (x :: l) ≠ [] ∧ (List.take n (x :: l)).head? = some x := by
  cases n with
  | zero => exact absurd h (by omega)
  | succ m =>
    rw [List.take_succ_cons]
    exact ⟨List.cons_ne_nil _ _, rfl⟩

theorem take_append_take {α : Type} (A B : List α) (n : Nat) :
    (A ++ B.take n).take n = (A ++ B).take n := by
  rw [List.take_append_eq_append_take, List.take_append_eq_append_take, List.take_take,
    Nat.min_eq_left (Nat.sub_le n A.length)]

/-- Symbolic evaluation of the timeline record written by `put`. -/
theorem put_timeline_eq (s : AerospikeSaver) (c : Codecs) (σ : Store)
    (config : Option Config) (checkpoint metadata : PyDict) (now : Int)
    (t cns : String) (pcid bf : Option String)
    (hscm : s.set_cp ≠ s.set_meta)
    (hids : _ids_from_config config = .ok (t, cns, pcid, bf))
    (hid : (pyGet checkpoint "id").truthy = true) :
    ∀ r, s.put c σ config checkpoint metadata now = .ok r →
      storeGet r.store (s._key_timeline t cns)
        = some { items := some (c.tlDumps
            ((((if pyGet checkpoint "ts" = DVal.dnull then DVal.dint now
                else pyGet checkpoint "ts"), (pyGet checkpoint "id").toStr)
              :: (readTimelineItems c σ (s._key_timeline t cns)).filter
                  (fun p => p.2 != (pyGet checkpoint "id").toStr)).take
              s.timeline_max.toNat)) } := by
  intro r hr
  simp only [AerospikeSaver.put, hids, hid, if_true] at hr
  rw [Except.ok.injEq] at hr
  rw [← hr]
  rw [show
    (storeGet
      (storePut (storePut (storePut σ
        (s._key_cp t cns (pyGet checkpoint "id").toStr) _)
        (s._key_latest t cns) _) (s._key_timeline t cns) _)
      (s._key_timeline t cns)) = _ from storeGet_put_self _ _ _]
  rw [readTimelineItems_put_put c σ _ _ _ _ _
    (Ne.symm (key_cp_ne_timeline s hscm t cns _ t cns))
    (Ne.symm (key_latest_ne_timeline s t cns))]
  rw [ite_take_eq_take]

/-- Single-`put` timeline facts: the written index is the capped, deduped,
newest-first update of the previous one. -/
theorem put_timeline_facts (s : AerospikeSaver) (c : Codecs) (σ : Store)
    (config : Option Config) (checkpoint metadata : PyDict) (now : Int)
    (t cns : String) (pcid bf : Option String)
    (hscm : s.set_cp ≠ s.set_meta) (htm : 1 ≤ s.timeline_max)
    (hids : _ids_from_config config = .ok (t, cns, pcid, bf))
    (hid : (pyGet checkpoint "id").truthy = true)
    (hnd : ((readTimelineItems c σ (s._key_timeline t cns)).map Prod.snd).Nodup) :
    ∀ r, s.put c σ config checkpoint metadata now = .ok r →
      ∃ tsv l, storeGet r.store (s._key_timeline t cns) = some { items := some (c.tlDumps l) }
        ∧ l = ((tsv, (pyGet checkpoint "id").toStr)
              :: (readTimelineItems c σ (s._key_timeline t cns)).filter
                  (fun p => p.2 != (pyGet checkpoint "id").toStr)).take s.timeline_max.toNat
        ∧ (l.map Prod.snd).Nodup
        ∧ l.head? = some (tsv, (pyGet checkpoint "id").toStr)
        ∧ l.length ≤ s.timeline_max.toNat
        ∧ (l.map Prod.snd).count (pyGet checkpoint "id").toStr = 1 := by
  intro r hr
  have hcap : 1 ≤ s.timeline_max.toNat := by omega
  have hstore := put_timeline_eq s c σ config checkpoint metadata now t cns pcid bf
    hscm hids hid r hr
  refine ⟨_, _, hstore, rfl, ?_, ?_, ?_, ?_⟩
  · -- Nodup of the new ids
    have hsub : ((readTimelineItems c σ (s._key_timeline t cns)).filter
        (fun p => p.2 != (pyGet checkpoint "id").toStr)).Sublist
        (readTimelineItems c σ (s._key_timeline t cns)) := List.filter_sublist _
    have h1 : (((readTimelineItems c σ (s._key_timeline t cns)).filter
        (fun p => p.2 != (pyGet checkpoint "id").toStr)).map Prod.snd).Nodup :=
      (hsub.map Prod.snd).nodup hnd
    have h2 : (pyGet checkpoint "id").toStr ∉
        ((readTimelineItems c σ (s._key_timeline t cns)).filter
          (fun p => p.2 != (pyGet checkpoint "id").toStr)).map Prod.snd := by
      intro hmem
      obtain ⟨q, hq, hq2⟩ := List.mem_map.mp hmem
      have hpred := (List.mem_filter.mp hq).2
      rw [hq2] at hpred
      simp at hpred
    rw [List.map_take, List.map_cons]
    exact ((List.take_sublist _ _).nodup (List.nodup_cons.mpr ⟨h2, h1⟩))
  · exact (take_cons_head _ hcap _ _).2
  · exact List.length_take_le _ _
  · have h2 : (pyGet checkpoint "id").toStr ∉
        ((readTimelineItems c σ (s._key_timeline t cns)).filter
          (fun p => p.2 != (pyGet checkpoint "id").toStr)).map Prod.snd := by
      intro hmem
      obtain ⟨q, hq, hq2⟩ := List.mem_map.mp hmem
      have hpred := (List.mem_filter.mp hq).2
      rw [hq2] at hpred
      simp at hpred
    have hle : (((((if pyGet checkpoint "ts" = DVal.dnull then DVal.dint now
        else pyGet checkpoint "ts"), (pyGet checkpoint "id").toStr)
        :: (readTimelineItems c σ (s._key_timeline t cns)).filter
            (fun p => p.2 != (pyGet checkpoint "id").toStr)).take
          s.timeline_max.toNat).map Prod.snd).count (pyGet checkpoint "id").toStr ≤ 1 := by
      rw [List.map_take, List.map_cons]
      calc _ ≤ (((pyGet checkpoint "id").toStr
            :: ((readTimelineItems c σ (s._key_timeline t cns)).filter
              (fun p => p.2 != (pyGet checkpoint "id").toStr)).map Prod.snd)).count
              (pyGet checkpoint "id").toStr :=
            (List.take_sublist _ _).count_le _
        _ = 1 := by
            rw [List.count_cons_self, List.count_eq_zero.mpr h2]
    have hmem : (pyGet checkpoint "id").toStr ∈
        (((((if pyGet checkpoint "ts" = DVal.dnull then DVal.dint now
        else pyGet checkpoint "ts"), (pyGet checkpoint "id").toStr)
        :: (readTimelineItems c σ (s._key_timeline t cns)).filter
            (fun p => p.2 != (pyGet checkpoint "id").toStr)).take
          s.timeline_max.toNat).map Prod.snd) := by
      refine List.mem_map.mpr ⟨((if pyGet checkpoint "ts" = DVal.dnull then DVal.dint now
        else pyGet checkpoint "ts"), (pyGet checkpoint "id").toStr), ?_, rfl⟩
      exact List.mem_of_mem_head? (take_cons_head _ hcap _ _).2
    have hpos := List.count_pos_iff.mpr hmem
    omega

/-- Iterating `put` over fresh distinct checkpoint ids: the timeline ends
up holding the suffix of the insertion sequence, newest first, capped. -/
theorem runPuts_timeline (s : AerospikeSaver) (c : Codecs)
    (hscm : s.set_cp ≠ s.set_meta) (htm : 1 ≤ s.timeline_max)
    (hrt : ∀ tl, c.tlLoads (c.tlDumps tl) = some (tl.map (fun p => TLItem.pair p.1 p.2)))
    (config : Option Config) (t cns : String) (pcid bf : Option String)
    (hids : _ids_from_config config = .ok (t, cns, pcid, bf)) :
    ∀ (l : List (String × Int)) (σ : Store),
      (∀ p ∈ l, p.1 ≠ "") →
      (l.map Prod.fst).Nodup →
      ((readTimelineItems c σ (s._key_timeline t cns)).length ≤ s.timeline_max.toNat) →
      (∀ q ∈ readTimelineItems c σ (s._key_timeline t cns), ∀ p ∈ l, q.2 ≠ p.1) →
      ∃ σf, runPuts s c config σ l = .ok σf
        ∧ readTimelineItems c σf (s._key_timeline t cns)
            = ((l.map (fun p => (DVal.dint p.2, p.1))).reverse
                ++ readTimelineItems c σ (s._key_timeline t cns)).take s.timeline_max.toNat := by
  intro l
  induction l with
  | nil =>
    intro σ _ _ hlen _
    refine ⟨σ, rfl, ?_⟩
    rw [List.map_nil, List.reverse_nil, List.nil_append,
      List.take_of_length_le hlen]
  | cons hd rest ih =>
    intro σ hne hnd hlen hdisj
    obtain ⟨cid, tsn⟩ := hd
    have hcid : cid ≠ "" := hne (cid, tsn) (List.mem_cons_self _ _)
    have hid : (pyGet [("id", DVal.dstr cid)] "id").truthy = true := by
      simp [pyGet, dictGet, List.find?, DVal.truthy, bne_iff_ne, hcid]
    have hts : pyGet [("id", DVal.dstr cid)] "ts" = DVal.dnull := by
      simp [pyGet, dictGet, List.find?]
    have hidv : (pyGet [("id", DVal.dstr cid)] "id").toStr = cid := by
      simp [pyGet, dictGet, List.find?, DVal.toStr]
    cases hput : s.put c σ config [("id", DVal.dstr cid)] [] tsn with
    | error e =>
      exfalso
      simp only [AerospikeSaver.put, hids, hid, if_true] at hput
      exact absurd hput (by simp)
    | ok r =>
      have hstore := put_timeline_eq s c σ config [("id", DVal.dstr cid)] [] tsn
        t cns pcid bf hscm hids hid r hput
      rw [hts, hidv] at hstore
      simp only [eq_self_iff_true, if_true] at hstore
      have hfil : (readTimelineItems c σ (s._key_timeline t cns)).filter
          (fun p => p.2 != cid) = readTimelineItems c σ (s._key_timeline t cns) := by
        refine List.filter_eq_self.mpr ?_
        intro q hq
        exact bne_iff_ne.mpr (hdisj q hq (cid, tsn) (List.mem_cons_self _ _))
      rw [hfil] at hstore
      have hread : readTimelineItems c r.store (s._key_timeline t cns)
          = ((DVal.dint tsn, cid) :: readTimelineItems c σ (s._key_timeline t cns)).take
              s.timeline_max.toNat := by
        simp only [readTimelineItems, hstore, hrt, cleanTl_map_pair]
      have hcid_notin : cid ∉ rest.map Prod.fst := (List.nodup_cons.mp hnd).1
      have ihres := ih r.store (fun p hp => hne p (List.mem_cons_of_mem _ hp))
        (List.nodup_cons.mp hnd).2
        (by rw [hread]; exact List.length_take_le _ _)
        (by
          intro q hq p hp
          rw [hread] at hq
          have hq2 := List.take_subset _ _ hq
          rcases List.mem_cons.mp hq2 with hq3 | hq3
          · rw [hq3]
            intro hcontra
            exact hcid_notin (List.mem_map.mpr ⟨p, hp, hcontra.symm⟩)
          · exact hdisj q hq3 p (List.mem_cons_of_mem _ hp))
      obtain ⟨σf, hrun, hfinal⟩ := ihres
      refine ⟨σf, ?_, ?_⟩
      · simp only [runPuts, hput]
        exact hrun
      · rw [hread, take_append_take] at hfinal
        rw [hfinal]
        simp [List.reverse_cons, List.append_assoc]

/-- C2: after every successful `put` (from a store whose timeline ids are
duplicate-free), the Timeline Index holds at most `timeline_max` entries
with pairwise-distinct ids, the just-written `(timestamp, checkpoint_id)`
entry first, the re-put id occurring exactly once (its old position
removed); and writing `timeline_max + k` distinct checkpoints from an
empty store leaves exactly `timeline_max` entries, the most recent by
insertion order, newest first. -/
theorem timeline_invariant_after_put (s : AerospikeSaver) (c : Codecs)
    (hscm : s.set_cp ≠ s.set_meta) (htm : 1 ≤ s.timeline_max) :
    (∀ (σ : Store) (config : Option Config) (checkpoint metadata : PyDict) (now : Int)
        (t cns : String) (pcid bf : Option String),
      _ids_from_config config = .ok (t, cns, pcid, bf) →
      (pyGet checkpoint "id").truthy = true →
      ((readTimelineItems c σ (s._key_timeline t cns)).map Prod.snd).Nodup →
      ∀ r, s.put c σ config checkpoint metadata now = .ok r →
        ∃ tsv l, storeGet r.store (s._key_timeline t cns) = some { items := some (c.tlDumps l) }
          ∧ l = ((tsv, (pyGet checkpoint "id").toStr)
                :: (readTimelineItems c σ (s._key_timeline t cns)).filter
                    (fun p => p.2 != (pyGet checkpoint "id").toStr)).take s.timeline_max.toNat
          ∧ (l.map Prod.snd).Nodup
          ∧ l.head? = some (tsv, (pyGet checkpoint "id").toStr)
          ∧ l.length ≤ s.timeline_max.toNat
          ∧ (l.map Prod.snd).count (pyGet checkpoint "id").toStr = 1)
    ∧ (∀ (config : Option Config) (t cns : String) (pcid bf : Option String),
        _ids_from_config config = .ok (t, cns, pcid, bf) →
        (∀ tl, c.tlLoads (c.tlDumps tl) = some (tl.map (fun p => TLItem.pair p.1 p.2))) →
        ∀ (l : List (String × Int)) (k : Nat),
          (∀ p ∈ l, p.1 ≠ "") →
          (l.map Prod.fst).Nodup →
          l.length = s.timeline_max.toNat + k →
          ∃ σf, runPuts s c config [] l = .ok σf
            ∧ readTimelineItems c σf (s._key_timeline t cns)
                = (l.map (fun p => (DVal.dint p.2, p.1))).reverse.take s.timeline_max.toNat
            ∧ (readTimelineItems c σf (s._key_timeline t cns)).length
                = s.timeline_max.toNat) := by
  constructor
  · intro σ config checkpoint metadata now t cns pcid bf hids hid hnd r hr
    exact put_timeline_facts s c σ config checkpoint metadata now t cns pcid bf
      hscm htm hids hid hnd r hr
  · intro config t cns pcid bf hids hrt l k hne hnd hlen
    have hempty : readTimelineItems c [] (s._key_timeline t cns) = [] := rfl
    obtain ⟨σf, hrun, hfinal⟩ := runPuts_timeline s c hscm htm hrt config t cns pcid bf
      hids l [] hne hnd (by rw [hempty]; exact Nat.zero_le _)
      (by rw [hempty]; intro q hq; exact absurd hq (List.not_mem_nil q))
    rw [hempty, List.append_nil] at hfinal
    refine ⟨σf, hrun, hfinal, ?_⟩
    rw [hfinal, List.length_take, List.length_reverse, List.length_map, hlen]
    omega

theorem timeline_invariant_after_put_witness :
    ∃ σf, runPuts (mkSaver "test" "lg_cp" "lg_cp_w" "lg_cp_meta" none 2) canonCodecs
        (some ⟨some ⟨some "t", none, none, none⟩, none⟩) []
        [("a", 1), ("b", 2), ("c", 3)] = .ok σf
      ∧ readTimelineItems canonCodecs σf
          ((mkSaver "test" "lg_cp" "lg_cp_w" "lg_cp_meta" none 2)._key_timeline "t" "")
          = (([("a", (1 : Int)), ("b", 2), ("c", 3)].map
              (fun p => (DVal.dint p.2, p.1))).reverse).take
              (mkSaver "test" "lg_cp" "lg_cp_w" "lg_cp_meta" none 2).timeline_max.toNat
      ∧ (readTimelineItems canonCodecs σf
          ((mkSaver "test" "lg_cp" "lg_cp_w" "lg_cp_meta" none 2)._key_timeline "t" "")).length
          = (mkSaver "test" "lg_cp" "lg_cp_w" "lg_cp_meta" none 2).timeline_max.toNat := by
  exact (timeline_invariant_after_put (mkSaver "test" "lg_cp" "lg_cp_w" "lg_cp_meta" none 2)
      canonCodecs (by decide) (by decide)).2
    (some ⟨some ⟨some "t", none, none, none⟩, none⟩) "t" "" none none rfl
    (fun tl => rfl) [("a", 1), ("b", 2), ("c", 3)] 1 (by decide) (by decide) (by decide)

/-- C1: for a valid `(thread_id, checkpoint_ns)` and a checkpoint with a
non-empty id, `put` followed by `get_tuple` with no explicit checkpoint id
resolves via the latest pointer to the just-written checkpoint: the
returned payload equals the written checkpoint dict, the metadata equals
what was written, and the resolved triple names the just-written
checkpoint id. -/
theorem put_then_get_roundtrip (s : AerospikeSaver) (c : Codecs) (σ : Store)
    (config config2 : Option Config) (checkpoint metadata : PyDict) (now : Int)
    (t cns cid : String) (pcid bf bf2 : Option String)
    (hscm : s.set_cp ≠ s.set_meta) (hswm : s.set_writes ≠ s.set_meta)
    (hswc : s.set_writes ≠ s.set_cp)
    (hids : _ids_from_config config = .ok (t, cns, pcid, bf))
    (hids2 : _ids_from_config config2 = .ok (t, cns, none, bf2))
    (hid : pyGet checkpoint "id" = DVal.dstr cid) (hcid : cid ≠ "")
    (hjson : c.jsonLoads (c.jsonDumps metadata) = some metadata)
    (hserde : ∀ v, c.loadsTyped (c.dumpsTyped v) = some v)
    (hw : storeGet σ (s._key_writes t cns cid) = none) :
    ∃ r, s.put c σ config checkpoint metadata now = .ok r
      ∧ s.get_tuple c r.store config2
          = .ok (some
              { config := ⟨some ⟨some t, some cns, some cid, none⟩, none⟩,
                checkpoint := .dict r.checkpoint,
                metadata := metadata,
                parent_config :=
                  if strTruthy pcid then
                    some ⟨some ⟨some t, some cns, pcid, none⟩, none⟩
                  else none,
                pending_writes := [] }) := by
  have hid' : (pyGet checkpoint "id").truthy = true := by
    rw [hid]
    simp [DVal.truthy, bne_iff_ne, hcid]
  have hidv : (pyGet checkpoint "id").toStr = cid := by rw [hid]; rfl
  cases hput : s.put c σ config checkpoint metadata now with
  | error e =>
    exfalso
    simp only [AerospikeSaver.put, hids, hid', if_true] at hput
    exact absurd hput (by simp)
  | ok r =>
    refine ⟨r, rfl, ?_⟩
    simp only [AerospikeSaver.put, hids, hid', if_true] at hput
    rw [Except.ok.injEq] at hput
    rw [← hput]
    simp only [AerospikeSaver.get_tuple, getTupleFetch, hids2, hidv,
      storeGet_put_self,
      storeGet_put_ne _ _ _ _ (key_latest_ne_timeline s t cns),
      storeGet_put_ne _ _ _ _ (key_cp_ne_timeline s hscm t cns cid t cns),
      storeGet_put_ne _ _ _ _ (key_cp_ne_latest s hscm t cns cid t cns),
      storeGet_put_ne _ _ _ _ (key_writes_ne_timeline s hswm t cns cid t cns),
      storeGet_put_ne _ _ _ _ (key_writes_ne_latest s hswm t cns cid t cns),
      storeGet_put_ne _ _ _ _ (key_writes_ne_cp s hswc t cns cid t cns cid),
      hw, Prod.mk.eta, hserde, hjson, Option.getD]

theorem put_then_get_roundtrip_witness :
    ∃ r, defaultSaver.put canonCodecs [] (some ⟨some ⟨some "t", none, none, none⟩, none⟩)
        [("id", DVal.dstr "ck1")] [("k", DVal.dstr "v")] 9 = .ok r
      ∧ defaultSaver.get_tuple canonCodecs r.store
          (some ⟨some ⟨some "t", none, none, none⟩, none⟩)
          = .ok (some
              { config := ⟨some ⟨some "t", some "", some "ck1", none⟩, none⟩,
                checkpoint := .dict r.checkpoint,
                metadata := [("k", DVal.dstr "v")],
                parent_config :=
                  if strTruthy none then
                    some ⟨some ⟨some "t", some "", none, none⟩, none⟩
                  else none,
                pending_writes := [] }) := by
  exact put_then_get_roundtrip defaultSaver canonCodecs []
    (some ⟨some ⟨some "t", none, none, none⟩, none⟩)
    (some ⟨some ⟨some "t", none, none, none⟩, none⟩)
    [("id", DVal.dstr "ck1")] [("k", DVal.dstr "v")] 9
    "t" "" "ck1" none none none (by decide) (by decide) (by decide)
    rfl rfl rfl (by decide) rfl (fun v => rfl) rfl

/-! ### put_writes merge lemmas (for C3) -/

theorem mem_mergeOne_of (c : Codecs) (task_id task_path : String) (now : Int)
    (acc : List WItem) (iw : Nat × String × PyVal) (e : WItem)
    (he : e ∈ acc) (hne : e.task_id ≠ some task_id) :
    e ∈ mergeOne c task_id task_path now acc iw := by
  unfold mergeOne
  dsimp only
  split
  · next i0 hidx =>
    obtain ⟨hlt, hp, _⟩ := List.findIdx?_eq_some_iff_getElem.mp hidx
    obtain ⟨j, hj, hje⟩ := List.mem_iff_getElem.mp he
    have hji : i0 ≠ j := by
      intro hcontra
      subst hcontra
      rw [hje] at hp
      simp only [Bool.and_eq_true, beq_iff_eq] at hp
      exact hne hp.1
    refine List.mem_iff_getElem.mpr ⟨j, ?_, ?_⟩
    · rw [List.length_set]
      exact hj
    · rw [List.getElem_set_ne hji]
      exact hje
  · next => exact List.mem_append_left _ he

theorem mergeOne_establishes (c : Codecs) (task_id task_path : String) (now : Int)
    (acc : List WItem) (iw : Nat × String × PyVal) :
    ∃ item ∈ mergeOne c task_id task_path now acc iw,
      item.task_id = some task_id
      ∧ item.idx = some ((c.writesIdxMap iw.2.1).getD (Int.ofNat iw.1)) := by
  unfold mergeOne
  dsimp only
  split
  · next i0 hidx =>
    obtain ⟨hlt, hp, _⟩ := List.findIdx?_eq_some_iff_getElem.mp hidx
    refine ⟨_, List.mem_iff_getElem.mpr ⟨i0, ?_, List.getElem_set_self ?_⟩, rfl, rfl⟩
    · rw [List.length_set]
      exact hlt
    · rw [List.length_set]
      exact hlt
  · next =>
    refine ⟨_, List.mem_append_right _ (List.mem_singleton_self _), rfl, rfl⟩

theorem mergeOne_preserves_slot (c : Codecs) (task_id task_path : String) (now : Int)
    (acc : List WItem) (iw : Nat × String × PyVal) (idxv : Int)
    (h : ∃ item ∈ acc, item.task_id = some task_id ∧ item.idx = some idxv) :
    ∃ item ∈ mergeOne c task_id task_path now acc iw,
      item.task_id = some task_id ∧ item.idx = some idxv := by
  by_cases hsame : idxv = (c.writesIdxMap iw.2.1).getD (Int.ofNat iw.1)
  · rw [hsame]
    exact mergeOne_establishes c task_id task_path now acc iw
  · obtain ⟨w, hw, hw1, hw2⟩ := h
    unfold mergeOne
    dsimp only
    split
    · next i0 hidx =>
      obtain ⟨hlt, hp, _⟩ := List.findIdx?_eq_some_iff_getElem.mp hidx
      obtain ⟨j, hj, hje⟩ := List.mem_iff_getElem.mp hw
      have hji : i0 ≠ j := by
        intro hcontra
        subst hcontra
        rw [hje] at hp
        simp only [Bool.and_eq_true, beq_iff_eq] at hp
        rw [hw2] at hp
        exact hsame (Option.some_injective _ hp.2)
      refine ⟨w, List.mem_iff_getElem.mpr ⟨j, ?_, ?_⟩, hw1, hw2⟩
      · rw [List.length_set]
        exact hj
      · rw [List.getElem_set_ne hji]
        exact hje
    · next => exact ⟨w, List.mem_append_left _ hw, hw1, hw2⟩

theorem foldl_mergeOne_preserves_other (c : Codecs) (task_id task_path : String) (now : Int) :
    ∀ (lw : List (Nat × String × PyVal)) (acc : List WItem) (e : WItem),
      e ∈ acc → e.task_id ≠ some task_id →
      e ∈ lw.foldl (mergeOne c task_id task_path now) acc := by
  intro lw
  induction lw with
  | nil =>
    intro acc e he _
    exact he
  | cons hd rest ih =>
    intro acc e he hne
    rw [List.foldl_cons]
    exact ih _ e (mem_mergeOne_of c task_id task_path now acc hd e he hne) hne

theorem foldl_mergeOne_preserves_slot (c : Codecs) (task_id task_path : String) (now : Int)
    (idxv : Int) :
    ∀ (lw : List (Nat × String × PyVal)) (acc : List WItem),
      (∃ item ∈ acc, item.task_id = some task_id ∧ item.idx = some idxv) →
      ∃ item ∈ lw.foldl (mergeOne c task_id task_path now) acc,
        item.task_id = some task_id ∧ item.idx = some idxv := by
  intro lw
  induction lw with
  | nil =>
    intro acc h
    exact h
  | cons hd rest ih =>
    intro acc h
    rw [List.foldl_cons]
    exact ih _ (mergeOne_preserves_slot c task_id task_path now acc hd idxv h)

theorem foldl_mergeOne_claims_slot (c : Codecs) (task_id task_path : String) (now : Int) :
    ∀ (lw : List (Nat × String × PyVal)) (acc : List WItem), ∀ iw ∈ lw,
      ∃ item ∈ lw.foldl (mergeOne c task_id task_path now) acc,
        item.task_id = some task_id
        ∧ item.idx = some ((c.writesIdxMap iw.2.1).getD (Int.ofNat iw.1)) := by
  intro lw
  induction lw with
  | nil =>
    intro acc iw h
    exact absurd h (List.not_mem_nil iw)
  | cons hd rest ih =>
    intro acc iw hiw
    rw [List.foldl_cons]
    rcases List.mem_cons.mp hiw with h | h
    · subst h
      exact foldl_mergeOne_preserves_slot c task_id task_path now _ rest _
        (mergeOne_establishes c task_id task_path now acc iw)
    · exact ih _ iw h

/-- C3: `put_writes` merges into the existing ledger: the record written
back is the fold of the merge step over the incoming `(channel, value)`
pairs with their positions, items of other tasks survive, each incoming
position claims the slot `WRITES_IDX_MAP.get(channel, i)`, and in the
concrete two-call scenario on a non-special channel the second call
replaces the slot-0 item in place, leaving two items with `c` at slot 0. -/
theorem put_writes_merge (s : AerospikeSaver) (c : Codecs) :
    (∀ (σ : Store) (config : Option Config) (writes : List (String × PyVal))
        (task_id task_path : String) (now : Int) (t cns cid : String)
        (bf : Option String) (E : List WItem),
      writes ≠ [] →
      _ids_from_config config = .ok (t, cns, some cid, bf) →
      cid ≠ "" →
      existingWritesItems σ (s._key_writes t cns cid) = .ok E →
      s.put_writes c σ config writes task_id task_path now
          = .ok (storePut σ (s._key_writes t cns cid)
              { writes := some (writes.enum.foldl (mergeOne c task_id task_path now) E) })
        ∧ (∀ e ∈ E, e.task_id ≠ some task_id →
            e ∈ writes.enum.foldl (mergeOne c task_id task_path now) E)
        ∧ (∀ iw ∈ writes.enum,
            ∃ item ∈ writes.enum.foldl (mergeOne c task_id task_path now) E,
              item.task_id = some task_id
              ∧ item.idx = some ((c.writesIdxMap iw.2.1).getD (Int.ofNat iw.1))))
    ∧ (∀ (σ : Store) (config : Option Config) (t cns cid : String) (bf : Option String)
        (a bv cv : PyVal) (n1 n2 : Int),
      _ids_from_config config = .ok (t, cns, some cid, bf) →
      cid ≠ "" →
      c.writesIdxMap "messages" = none →
      storeGet σ (s._key_writes t cns cid) = none →
      ∀ σ1, s.put_writes c σ config [("messages", a), ("messages", bv)] "t1" "" n1 = .ok σ1 →
      ∀ σ2, s.put_writes c σ1 config [("messages", cv)] "t1" "" n2 = .ok σ2 →
        storeGet σ2 (s._key_writes t cns cid) = some { writes := some (
          [{ task_id := some "t1", task_path := some "", channel := some "messages",
             idx := some 0, wtype := some (c.dumpsTyped cv).1,
             value := some (c.dumpsTyped cv).2, ts := some n2 },
           { task_id := some "t1", task_path := some "", channel := some "messages",
             idx := some 1, wtype := some (c.dumpsTyped bv).1,
             value := some (c.dumpsTyped bv).2, ts := some n1 }]) }) := by
  constructor
  · intro σ config writes task_id task_path now t cns cid bf E hne hids hcid hE
    have hne' : writes.isEmpty = false := by
      cases writes with
      | nil => exact absurd rfl hne
      | cons a l => rfl
    have hct : strTruthy (some cid) = true := by
      simp [strTruthy, bne_iff_ne, hcid]
    refine ⟨?_, ?_, ?_⟩
    · simp only [AerospikeSaver.put_writes, hne', hids, hct, if_true, Option.getD, hE,
        Bool.false_eq_true, if_false]
    · intro e he hnet
      exact foldl_mergeOne_preserves_other c task_id task_path now writes.enum E e he hnet
    · intro iw hiw
      exact foldl_mergeOne_claims_slot c task_id task_path now writes.enum E iw hiw
  · intro σ config t cns cid bf a bv cv n1 n2 hids hcid hmsg hnone σ1 h1 σ2 h2
    have hct : strTruthy (some cid) = true := by
      simp [strTruthy, bne_iff_ne, hcid]
    have hE0 : existingWritesItems σ (s._key_writes t cns cid) = .ok [] := by
      simp [existingWritesItems, hnone]
    simp only [AerospikeSaver.put_writes, hids, hct, if_true, Option.getD, hE0] at h1
    simp [List.enum, List.enumFrom, mergeOne, hmsg, List.findIdx?_nil,
      List.findIdx?_cons] at h1
    rw [← h1] at h2
    have hE1 : existingWritesItems
        (storePut σ (s._key_writes t cns cid)
          { writes := some (
            [{ task_id := some "t1", task_path := some "", channel := some "messages",
               idx := some 0, wtype := some (c.dumpsTyped a).1,
               value := some (c.dumpsTyped a).2, ts := some n1 },
             { task_id := some "t1", task_path := some "", channel := some "messages",
               idx := some 1, wtype := some (c.dumpsTyped bv).1,
               value := some (c.dumpsTyped bv).2, ts := some n1 }]) })
        (s._key_writes t cns cid) = .ok
          [{ task_id := some "t1", task_path := some "", channel := some "messages",
             idx := some 0, wtype := some (c.dumpsTyped a).1,
             value := some (c.dumpsTyped a).2, ts := some n1 },
           { task_id := some "t1", task_path := some "", channel := some "messages",
             idx := some 1, wtype := some (c.dumpsTyped bv).1,
             value := some (c.dumpsTyped bv).2, ts := some n1 }] := by
      simp [existingWritesItems, storeGet_put_self]
    simp only [AerospikeSaver.put_writes, hids, hct, if_true, Option.getD, hE1] at h2
    simp [List.enum, List.enumFrom, mergeOne, hmsg, List.findIdx?_nil,
      List.findIdx?_cons] at h2
    rw [← h2]
    exact storeGet_put_self _ _ _

theorem put_writes_merge_witness :
    storeGet
      (storePut (storePut [] (defaultSaver._key_writes "t" "" "ck1")
        { writes := some ([
          { task_id := some "t1", task_path := some "", channel := some "messages",
            idx := some 0, wtype := some "py",
            value := some (Blob.py (PyVal.prim (DVal.dstr "a"))), ts := some 1 },
          { task_id := some "t1", task_path := some "", channel := some "messages",
            idx := some 1, wtype := some "py",
            value := some (Blob.py (PyVal.prim (DVal.dstr "b"))), ts := some 1 }]) })
        (defaultSaver._key_writes "t" "" "ck1")
        { writes := some ([
          { task_id := some "t1", task_path := some "", channel := some "messages",
            idx := some 0, wtype := some "py",
            value := some (Blob.py (PyVal.prim (DVal.dstr "c"))), ts := some 2 },
          { task_id := some "t1", task_path := some "", channel := some "messages",
            idx := some 1, wtype := some "py",
            value := some (Blob.py (PyVal.prim (DVal.dstr "b"))), ts := some 1 }]) })
      (defaultSaver._key_writes "t" "" "ck1")
    = some { writes := some ([
        { task_id := some "t1", task_path := some "", channel := some "messages",
          idx := some 0,
          wtype := some (canonCodecs.dumpsTyped (PyVal.prim (DVal.dstr "c"))).1,
          value := some (canonCodecs.dumpsTyped (PyVal.prim (DVal.dstr "c"))).2,
          ts := some 2 },
        { task_id := some "t1", task_path := some "", channel := some "messages",
          idx := some 1,
          wtype := some (canonCodecs.dumpsTyped (PyVal.prim (DVal.dstr "b"))).1,
          value := some (canonCodecs.dumpsTyped (PyVal.prim (DVal.dstr "b"))).2,
          ts := some 1 }]) } := by
  exact (put_writes_merge defaultSaver canonCodecs).2 []
    (some ⟨some ⟨some "t", none, some "ck1", none⟩, none⟩) "t" "" "ck1" none
    (.prim (.dstr "a")) (.prim (.dstr "b")) (.prim (.dstr "c")) 1 2
    rfl (by decide) rfl rfl _ rfl _ rfl

/-! ### list / before lemmas (for C4) -/

theorem beforeScan_true (b : String) (l : List (DVal × String)) :
    beforeScan b true l = l := by
  induction l with
  | nil => rfl
  | cons p rest ih =>
    obtain ⟨t, cid⟩ := p
    simp [beforeScan, ih]

theorem beforeScan_not_mem (b : String) (l : List (DVal × String))
    (h : b ∉ l.map Prod.snd) :
    beforeScan b false l = [] := by
  induction l with
  | nil => rfl
  | cons p rest ih =>
    obtain ⟨t, cid⟩ := p
    have hcid : cid ≠ b := by
      intro hc
      exact h (List.mem_map.mpr ⟨(t, cid), List.mem_cons_self _ _, hc⟩)
    have hrest : b ∉ rest.map Prod.snd := by
      intro hc
      obtain ⟨q, hq, hq2⟩ := List.mem_map.mp hc
      exact h (List.mem_map.mpr ⟨q, List.mem_cons_of_mem _ hq, hq2⟩)
    simp [beforeScan, hcid, ih hrest]

theorem beforeScan_split (b : String) (pre : List (DVal × String)) (tb : DVal)
    (suf : List (DVal × String)) (h : b ∉ pre.map Prod.snd) :
    beforeScan b false (pre ++ (tb, b) :: suf) = suf := by
  induction pre with
  | nil => simp [beforeScan, beforeScan_true]
  | cons p pre' ih =>
    obtain ⟨t, cid⟩ := p
    have hcid : cid ≠ b := by
      intro hc
      exact h (List.mem_map.mpr ⟨(t, cid), List.mem_cons_self _ _, hc⟩)
    have hpre : b ∉ pre'.map Prod.snd := by
      intro hc
      obtain ⟨q, hq, hq2⟩ := List.mem_map.mp hc
      exact h (List.mem_map.mpr ⟨q, List.mem_cons_of_mem _ hq, hq2⟩)
    simp [beforeScan, hcid, ih hpre]

theorem listRender_length_le (s : AerospikeSaver) (c : Codecs) (σ : Store)
    (t cns : String) (items : List (DVal × String)) :
    (listRender s c σ t cns items).length ≤ items.length := by
  suffices h : ∀ (its : List (DVal × String)) (init : List (String × PyDict)),
      (its.foldl (fun out p =>
        match storeGet σ (s._key_cp t cns p.2) with
        | none => out
        | some bins =>
          out ++ [(p.2,
            match bins.metadata with
            | some bb => (c.jsonLoads bb).getD []
            | none => [])]) init).length ≤ init.length + its.length by
    simpa [listRender] using h items []
  intro its
  induction its with
  | nil => intro init; simp
  | cons hd rest ih =>
    intro init
    rw [List.foldl_cons]
    refine le_trans (ih _) ?_
    cases hget : storeGet σ (s._key_cp t cns hd.2) with
    | none =>
      simp [hget]
    | some bins =>
      simp [hget]
      omega

/-- C4 counterexample: with `before = ""` (an empty-string before value),
the source's `if before:` truthiness check skips the filter entirely, so
`list` returns the timeline entries even though `""` does not occur in the
index — contradicting "when `before` does not occur in the index, list
returns the empty list". -/
theorem list_empty_before_not_filtered :
    defaultSaver.list canonCodecs
        [(defaultSaver._key_timeline "t" "", { items := some (.tl [(.dint 1, "ck1")]) }),
         (defaultSaver._key_cp "t" "" "ck1", { metadata := some (.meta []) })]
        (some ⟨some ⟨some "t", none, none, some ""⟩, none⟩) 20
      = .ok [("ck1", [])]
    ∧ "" ∉ (readTimelineItems canonCodecs
        [(defaultSaver._key_timeline "t" "", { items := some (.tl [(.dint 1, "ck1")]) }),
         (defaultSaver._key_cp "t" "" "ck1", { metadata := some (.meta []) })]
        (defaultSaver._key_timeline "t" "")).map Prod.snd
    ∧ ([("ck1", ([] : PyDict))] : List (String × PyDict)) ≠ [] := by
  refine ⟨rfl, by decide, by decide⟩

/-- C4 amended: for every non-empty `before` value, `list` returns only
the entries strictly after the first occurrence of `before` in the
newest-first index, truncated to at most `max(1, limit)` entries, and
returns `[]` when `before` does not occur; an empty-string `before` is
treated as absent (no filtering), per the source's truthiness check. -/
theorem list_before_filter_amended (s : AerospikeSaver) (c : Codecs) (σ : Store)
    (config : Option Config) (limit : Int) (t cns : String) (cidOpt : Option String)
    (b : String)
    (hids : _ids_from_config config = .ok (t, cns, cidOpt, some b))
    (hb : b ≠ "") :
    (∀ out, s.list c σ config limit = .ok out → out.length ≤ (max 1 limit).toNat)
    ∧ (b ∉ (readTimelineItems c σ (s._key_timeline t cns)).map Prod.snd →
        s.list c σ config limit = .ok [])
    ∧ (∀ pre tb suf, readTimelineItems c σ (s._key_timeline t cns) = pre ++ (tb, b) :: suf →
        b ∉ pre.map Prod.snd →
        s.list c σ config limit
          = .ok (listRender s c σ t cns (suf.take (max 1 limit).toNat))) := by
  have hbt : strTruthy (some b) = true := by
    simp [strTruthy, bne_iff_ne, hb]
  refine ⟨?_, ?_, ?_⟩
  · intro out hout
    simp only [AerospikeSaver.list, hids, hbt, if_true, Option.getD] at hout
    rw [Except.ok.injEq] at hout
    rw [← hout]
    exact le_trans (listRender_length_le s c σ t cns _) (List.length_take_le _ _)
  · intro hnm
    simp only [AerospikeSaver.list, hids, hbt, if_true, Option.getD]
    rw [beforeScan_not_mem b _ hnm, List.take_nil]
    rfl
  · intro pre tb suf hsplit hpre
    simp only [AerospikeSaver.list, hids, hbt, if_true, Option.getD]
    rw [hsplit, beforeScan_split b pre tb suf hpre]

theorem list_before_filter_amended_witness :
    defaultSaver.list canonCodecs
        [(defaultSaver._key_timeline "t" "", { items := some (.tl [(.dint 1, "ck1")]) })]
        (some ⟨some ⟨some "t", none, none, some "nope"⟩, none⟩) 20 = .ok [] := by
  exact (list_before_filter_amended defaultSaver canonCodecs
      [(defaultSaver._key_timeline "t" "", { items := some (.tl [(.dint 1, "ck1")]) })]
      (some ⟨some ⟨some "t", none, none, some "nope"⟩, none⟩) 20 "t" "" none "nope"
      rfl (by decide)).2.1 (by decide)

/-! ### get_tuple degradation lemmas (for C5) -/

theorem decodeWrites_ok_filterMap (c : Codecs) :
    ∀ (items : List WItem) (lw : List (String × String × PyVal)),
      decodeWrites c items = .ok lw →
      lw = items.filterMap (fun it =>
        match it.channel, it.wtype, it.value with
        | some ch, some ty, some v =>
          (c.loadsTyped (ty, v)).map (fun pv => (it.task_id.getD "", ch, pv))
        | _, _, _ => none) := by
  intro items
  induction items with
  | nil =>
    intro lw h
    rw [decodeWrites] at h
    rw [Except.ok.injEq] at h
    simp [← h]
  | cons it rest ih =>
    intro lw h
    rw [decodeWrites] at h
    rcases hch : it.channel with _ | ch
    all_goals rcases hty : it.wtype with _ | ty
    all_goals rcases hv : it.value with _ | v
    all_goals simp only [hch, hty, hv] at h
    all_goals simp only [List.filterMap_cons, hch, hty, hv]
    · exact ih lw h
    · exact ih lw h
    · exact ih lw h
    · exact ih lw h
    · exact ih lw h
    · exact ih lw h
    · exact ih lw h
    · rcases hload : c.loadsTyped (ty, v) with _ | pv
      · rw [hload] at h
        exact absurd h (by simp)
      · rcases hrec : decodeWrites c rest with e | tail
        · simp only [hload, hrec] at h
          exact absurd h (by simp)
        · simp only [hload, hrec] at h
          rw [Except.ok.injEq] at h
          rw [← h, ih tail hrec]
          simp

theorem getTupleFetch_ok (s : AerospikeSaver) (c : Codecs) (σ : Store)
    (t cns cid : String)
    (hben : ∀ wbins, storeGet σ (s._key_writes t cns cid) = some wbins →
        ∃ lw, decodeWrites c (wbins.writes.getD []) = .ok lw) :
    ∃ res, getTupleFetch s c σ t cns cid = .ok res := by
  unfold getTupleFetch
  cases hcp : storeGet σ (s._key_cp t cns cid) with
  | none => exact ⟨none, rfl⟩
  | some bins =>
    rcases hty : bins.cp_type with _ | ty
    · rcases hck : bins.checkpoint with _ | raw
      · exact ⟨none, by simp [hty, hck]⟩
      · exact ⟨none, by simp [hty, hck]⟩
    · rcases hck : bins.checkpoint with _ | raw
      · exact ⟨none, by simp [hty, hck]⟩
      · rcases hload : c.loadsTyped (ty, raw) with _ | cpv
        · exact ⟨none, by simp [hty, hck, hload]⟩
        · rcases hw : storeGet σ (s._key_writes t cns cid) with _ | wbins
          · refine
              ⟨some
                { config := ⟨some ⟨some t, some cns, some cid, none⟩, none⟩,
                  checkpoint := cpv,
                  metadata := (match bins.metadata with
                    | some b => (c.jsonLoads b).getD []
                    | none => []),
                  parent_config := (if strTruthy bins.p_checkpoint_id then
                      some ⟨some ⟨some t, some cns, bins.p_checkpoint_id, none⟩, none⟩
                    else none),
                  pending_writes := [] }, ?_⟩
            simp only [hty, hck, hload, hw]
          · obtain ⟨lw, hlw⟩ := hben wbins hw
            refine
              ⟨some
                { config := ⟨some ⟨some t, some cns, some cid, none⟩, none⟩,
                  checkpoint := cpv,
                  metadata := (match bins.metadata with
                    | some b => (c.jsonLoads b).getD []
                    | none => []),
                  parent_config := (if strTruthy bins.p_checkpoint_id then
                      some ⟨some ⟨some t, some cns, bins.p_checkpoint_id, none⟩, none⟩
                    else none),
                  pending_writes := lw }, ?_⟩
            simp only [hty, hck, hload, hw, hlw]

/-- C5 counterexample: a pending-writes ledger item with all keys present
but an undecodable value makes `get_tuple` raise — the source catches only
`KeyError` in the decode loop, so a `loads_typed` failure propagates as an
error instead of being skipped. -/
theorem get_tuple_pending_decode_error :
    defaultSaver.get_tuple canonCodecs
        [(defaultSaver._key_cp "t" "" "ck1",
          { cp_type := some "py", checkpoint := some (.py (.dict [])),
            metadata := some (.meta []) }),
         (defaultSaver._key_writes "t" "" "ck1",
          { writes := some
              ([{ task_id := some "t1", task_path := some "",
                  channel := some "ch", idx := some 0, wtype := some "bad",
                  value := some (.str "x"), ts := some 1 }]) })]
        (some ⟨some ⟨some "t", none, some "ck1", none⟩, none⟩)
      = .error "loads_typed raised while decoding a pending write" := rfl

/-- C5 amended: `get_tuple` degrades as specified for the payload and the
metadata (undecodable payload yields not-found; malformed metadata yields
an empty mapping while the read succeeds), and a ledger item missing a
required key is skipped; but a ledger item with all keys present whose
value fails to decode raises an error (only `KeyError` is caught), so
`get_tuple` is error-free only when every keys-present ledger item at the
resolved triple decodes. -/
theorem get_tuple_degradation_amended (s : AerospikeSaver) (c : Codecs) (σ : Store)
    (config : Option Config) (t cns : String) (cidOpt bf : Option String)
    (hids : _ids_from_config config = .ok (t, cns, cidOpt, bf))
    (hben : ∀ cid wbins, storeGet σ (s._key_writes t cns cid) = some wbins →
        ∃ lw, decodeWrites c (wbins.writes.getD []) = .ok lw) :
    (∃ res, s.get_tuple c σ config = .ok res)
    ∧ (∀ cid bins, cidOpt = some cid →
        storeGet σ (s._key_cp t cns cid) = some bins →
        (∀ ty raw, bins.cp_type = some ty → bins.checkpoint = some raw →
          c.loadsTyped (ty, raw) = none) →
        s.get_tuple c σ config = .ok none)
    ∧ (∀ cid bins ty raw cpv, cidOpt = some cid →
        storeGet σ (s._key_cp t cns cid) = some bins →
        bins.cp_type = some ty → bins.checkpoint = some raw →
        c.loadsTyped (ty, raw) = some cpv →
        (∀ mb, bins.metadata = some mb → c.jsonLoads mb = none) →
        ∃ tup, s.get_tuple c σ config = .ok (some tup)
          ∧ tup.metadata = [] ∧ tup.checkpoint = cpv)
    ∧ (∀ items lw, decodeWrites c items = .ok lw →
        lw = items.filterMap (fun it =>
          match it.channel, it.wtype, it.value with
          | some ch, some ty, some v =>
            (c.loadsTyped (ty, v)).map (fun pv => (it.task_id.getD "", ch, pv))
          | _, _, _ => none)) := by
  refine ⟨?_, ?_, ?_, ?_⟩
  · simp only [AerospikeSaver.get_tuple, hids]
    cases cidOpt with
    | some cid => exact getTupleFetch_ok s c σ t cns cid (hben cid)
    | none =>
      rcases hl : storeGet σ (s._key_latest t cns) with _ | lbins
      · exact ⟨none, rfl⟩
      · show ∃ res, (match lbins.checkpoint_id with
          | none => Except.ok none
          | some checkpoint_id => getTupleFetch s c σ t cns checkpoint_id) = .ok res
        rcases hcid : lbins.checkpoint_id with _ | cid
        · exact ⟨none, rfl⟩
        · exact getTupleFetch_ok s c σ t cns cid (hben cid)
  · intro cid bins hcid hcp hund
    subst hcid
    simp only [AerospikeSaver.get_tuple, hids, getTupleFetch, hcp]
    rcases hty : bins.cp_type with _ | ty
    · rcases hck : bins.checkpoint with _ | raw
      · simp [hty, hck]
      · simp [hty, hck]
    · rcases hck : bins.checkpoint with _ | raw
      · simp [hty, hck]
      · simp [hty, hck, hund ty raw hty hck]
  · intro cid bins ty raw cpv hcid hcp hty hck hload hmeta
    subst hcid
    simp only [AerospikeSaver.get_tuple, hids, getTupleFetch, hcp, hty, hck, hload]
    have hmd : (match bins.metadata with
        | some b => (c.jsonLoads b).getD []
        | none => ([] : PyDict)) = [] := by
      rcases hmb : bins.metadata with _ | mb
      · rfl
      · simp [hmeta mb hmb]
    rcases hw : storeGet σ (s._key_writes t cns cid) with _ | wbins
    · refine
        ⟨{ config := ⟨some ⟨some t, some cns, some cid, none⟩, none⟩,
           checkpoint := cpv,
           metadata := (match bins.metadata with
             | some b => (c.jsonLoads b).getD []
             | none => []),
           parent_config := (if strTruthy bins.p_checkpoint_id then
               some ⟨some ⟨some t, some cns, bins.p_checkpoint_id, none⟩, none⟩
             else none),
           pending_writes := [] }, ?_, hmd, rfl⟩
      simp only [hw]
    · obtain ⟨lw, hlw⟩ := hben cid wbins hw
      refine
        ⟨{ config := ⟨some ⟨some t, some cns, some cid, none⟩, none⟩,
           checkpoint := cpv,
           metadata := (match bins.metadata with
             | some b => (c.jsonLoads b).getD []
             | none => []),
           parent_config := (if strTruthy bins.p_checkpoint_id then
               some ⟨some ⟨some t, some cns, bins.p_checkpoint_id, none⟩, none⟩
             else none),
           pending_writes := lw }, ?_, hmd, rfl⟩
      simp only [hw, hlw]
  · exact decodeWrites_ok_filterMap c

theorem get_tuple_degradation_amended_witness :
    defaultSaver.get_tuple canonCodecs
        [(defaultSaver._key_cp "t" "" "ck1",
          { cp_type := some "bad", checkpoint := some (.str "junk") })]
        (some ⟨some ⟨some "t", none, some "ck1", none⟩, none⟩) = .ok none := by
  refine (get_tuple_degradation_amended defaultSaver canonCodecs
      [(defaultSaver._key_cp "t" "" "ck1",
        { cp_type := some "bad", checkpoint := some (.str "junk") })]
      (some ⟨some ⟨some "t", none, some "ck1", none⟩, none⟩) "t" "" (some "ck1") none
      rfl ?hben).2.1
      "ck1" { cp_type := some "bad", checkpoint := some (.str "junk") } rfl rfl ?hund
  case hben =>
    intro cid wbins h
    simp [storeGet, List.find?, AerospikeSaver._key_writes, AerospikeSaver._key_cp,
      defaultSaver, mkSaver, AeroKey.mk.injEq] at h
  case hund =>
    intro ty raw hty hraw
    simp only [Option.some.injEq] at hty hraw
    subst hty
    subst hraw
    rfl

/-! ### delete_thread lemmas (for C7, spec-modelled operation) -/

theorem delete_thread_result (s : AerospikeSaver) (c : Codecs) (σ : Store)
    (config : Option Config) (t cns : String) (cidOpt bf : Option String)
    (hids : _ids_from_config config = .ok (t, cns, cidOpt, bf)) :
    ∀ σ1, s.delete_thread c σ config = .ok σ1 →
      storeGet σ1 (s._key_latest t cns) = none
      ∧ storeGet σ1 (s._key_timeline t cns) = none := by
  intro σ1 h
  simp only [AerospikeSaver.delete_thread, hids] at h
  rw [Except.ok.injEq] at h
  rw [← h]
  constructor
  · rw [storeGet_del_ne _ _ _ (key_latest_ne_timeline s t cns)]
    exact storeGet_del_self _ _
  · exact storeGet_del_self _ _

theorem delete_thread_fixpoint (s : AerospikeSaver) (c : Codecs) (σ1 : Store)
    (config : Option Config) (t cns : String) (cidOpt bf : Option String)
    (hids : _ids_from_config config = .ok (t, cns, cidOpt, bf))
    (hl : storeGet σ1 (s._key_latest t cns) = none)
    (ht : storeGet σ1 (s._key_timeline t cns) = none) :
    s.delete_thread c σ1 config = .ok σ1 := by
  simp only [AerospikeSaver.delete_thread, hids, readTimelineItems, ht, hl,
    cleanTl, List.filterMap_nil, List.map_nil, List.nil_append, List.foldl_nil]
  rw [storeDel_of_absent _ _ hl, storeDel_of_absent _ _ ht]

/-- C7 (spec-modelled `delete_thread`): for every valid config the
operation never errors; after it the Latest Pointer and Timeline Index
records are gone and calling it again returns the same store unchanged
(idempotence, everything already absent); and when the Timeline Index is
missing or corrupt (reads as empty) it still removes the Latest Pointer
and the main and ledger records of the checkpoint the pointer references,
if resolvable. -/
theorem delete_thread_idempotent (s : AerospikeSaver) (c : Codecs)
    (hscm : s.set_cp ≠ s.set_meta) (hswm : s.set_writes ≠ s.set_meta)
    (hswc : s.set_writes ≠ s.set_cp) :
    (∀ (σ : Store) (config : Option Config) (t cns : String) (cidOpt bf : Option String),
      _ids_from_config config = .ok (t, cns, cidOpt, bf) →
      ∃ σ1, s.delete_thread c σ config = .ok σ1
        ∧ storeGet σ1 (s._key_latest t cns) = none
        ∧ storeGet σ1 (s._key_timeline t cns) = none
        ∧ s.delete_thread c σ1 config = .ok σ1)
    ∧ (∀ (σ : Store) (config : Option Config) (t cns : String) (cidOpt bf : Option String),
      _ids_from_config config = .ok (t, cns, cidOpt, bf) →
      readTimelineItems c σ (s._key_timeline t cns) = [] →
      ∀ σ1, s.delete_thread c σ config = .ok σ1 →
        storeGet σ1 (s._key_latest t cns) = none
        ∧ (∀ lb cid, storeGet σ (s._key_latest t cns) = some lb →
            lb.checkpoint_id = some cid →
            storeGet σ1 (s._key_cp t cns cid) = none
            ∧ storeGet σ1 (s._key_writes t cns cid) = none)) := by
  constructor
  · intro σ config t cns cidOpt bf hids
    cases hdel : s.delete_thread c σ config with
    | error e =>
      exfalso
      simp only [AerospikeSaver.delete_thread, hids] at hdel
      exact absurd hdel (by simp)
    | ok σ1 =>
      obtain ⟨hl, ht⟩ := delete_thread_result s c σ config t cns cidOpt bf hids σ1 hdel
      exact ⟨σ1, rfl, hl, ht,
        delete_thread_fixpoint s c σ1 config t cns cidOpt bf hids hl ht⟩
  · intro σ config t cns cidOpt bf hids hempty σ1 hdel
    refine ⟨(delete_thread_result s c σ config t cns cidOpt bf hids σ1 hdel).1, ?_⟩
    intro lb cid hlb hcid
    simp only [AerospikeSaver.delete_thread, hids, hempty, hlb, hcid,
      List.map_nil, List.nil_append, List.foldl_cons, List.foldl_nil] at hdel
    rw [Except.ok.injEq] at hdel
    rw [← hdel]
    constructor
    · rw [storeGet_del_ne _ _ _ (key_cp_ne_timeline s hscm t cns cid t cns),
        storeGet_del_ne _ _ _ (key_cp_ne_latest s hscm t cns cid t cns),
        storeGet_del_ne _ _ _ (Ne.symm (key_writes_ne_cp s hswc t cns cid t cns cid))]
      exact storeGet_del_self _ _
    · rw [storeGet_del_ne _ _ _ (key_writes_ne_timeline s hswm t cns cid t cns),
        storeGet_del_ne _ _ _ (key_writes_ne_latest s hswm t cns cid t cns)]
      exact storeGet_del_self _ _

theorem delete_thread_idempotent_witness :
    storeGet ([] : Store) (defaultSaver._key_cp "t" "" "ck1") = none
    ∧ storeGet ([] : Store) (defaultSaver._key_writes "t" "" "ck1") = none := by
  exact ((delete_thread_idempotent defaultSaver canonCodecs (by decide) (by decide)
      (by decide)).2
    [(defaultSaver._key_latest "t" "",
      { checkpoint_id := some "ck1", ts := some (DVal.dint 1) }),
     (defaultSaver._key_cp "t" "" "ck1",
      { cp_type := some "py", checkpoint := some (.py (.dict [])) })]
    (some ⟨some ⟨some "t", none, none, none⟩, none⟩) "t" "" none none rfl rfl _ rfl).2
    { checkpoint_id := some "ck1", ts := some (DVal.dint 1) } "ck1" rfl rfl
